import Mathlib

/-!
A shallow embedding of `convert.py` from the `gaica-convert` repository.

The script reads HTML statement pages, extracts one transaction table per
file, normalises each data row into an `Entry`, deduplicates entries in
sets, and writes the union to CSV.

Modelling conventions:
* An HTML cell (`td` or `div`) is represented by the value BeautifulSoup's
  `.string` attribute yields for it: `some s` when the element has a single
  direct text node `s`, `none` otherwise (empty element or nested markup).
  A `td` cell additionally carries the list of `.string` values of its
  nested `div` sub-elements (`find_all("div")`).
* Python `Decimal` values are modelled as `ℚ`; the parser models the
  fixed-point subset of `Decimal`'s input grammar (optional sign, digits,
  at most one point), which covers every string the script feeds it.
* Python exceptions are modelled by `Except Err`; an uncaught exception
  terminates the process with a non-zero exit status, a normal return is
  exit status 0.
* `str.strip`, `str.replace(c, '')` and `str.replace(c, d)` are modelled
  character-wise on `String.toList`.
-/

deriving instance DecidableEq for Except

/-- The exceptions the script can raise while extracting. -/
inductive Err where
  /-- `AttributeError`: calling `.strip()` / `.find_all` on `None`. -/
  | attributeError : Err
  /-- `ValueError`: empty unpacking target, bad date text, or the explicit
  `raise ValueError` in `clean_decimal`. -/
  | valueError : Err
  /-- `decimal.InvalidOperation`: `Decimal(...)` on a malformed string. -/
  | invalidOperation : Err
  /-- `IndexError`: subscripting a too-short cell list. -/
  | indexError : Err
deriving DecidableEq, Repr

/-- Python `str.strip()` (whitespace from both ends). -/
def pyStrip (s : String) : String :=
  String.mk (((s.toList.dropWhile Char.isWhitespace).reverse.dropWhile
    Char.isWhitespace).reverse)

/-- Python `str.replace(a, '')` for a one-character pattern `a`:
removes every occurrence of `a`. -/
def pyRemoveChar (s : String) (a : Char) : String :=
  String.mk (s.toList.filter (fun c => c ≠ a))

/-- Python `str.replace(a, b)` for one-character `a`, `b`. -/
def pyReplaceChar (s : String) (a b : Char) : String :=
  String.mk (s.toList.map (fun c => if c = a then b else c))

/-- The numeric value of a decimal digit character. -/
def charDigit (c : Char) : Option Nat :=
  if c.isDigit then some (c.toNat - 48) else none

/-- Fold a list of digit characters into a natural number, failing on the
first non-digit. -/
def digitsAux (acc : Nat) : List Char → Option Nat
  | [] => some acc
  | c :: cs =>
    match charDigit c with
    | some d => digitsAux (10 * acc + d) cs
    | none => none

/-- `digitsToNat l` reads `l` as a base-10 numeral. -/
def digitsToNat (l : List Char) : Option Nat :=
  digitsAux 0 l

/-- Split an optional leading sign off a numeral's character list. -/
def splitSign : List Char → Int × List Char
  | '-' :: r => (-1, r)
  | '+' :: r => (1, r)
  | r => (1, r)

/-- The fixed-point fragment of Python `Decimal(str)`: an optional sign,
then digits with at most one decimal point and at least one digit.
Returns `none` exactly where `Decimal` raises `InvalidOperation` on such
strings. -/
def parseDecimal (s : String) : Option ℚ :=
  let signed : Int × List Char := splitSign s.toList
  let ip := signed.2.takeWhile (fun c => c ≠ '.')
  match signed.2.dropWhile (fun c => c ≠ '.') with
  | [] =>
    match digitsToNat ip with
    | some n => if ip.isEmpty then none else some (mkRat (signed.1 * n) 1)
    | none => none
  | _ :: frac =>
    match digitsToNat ip, digitsToNat frac with
    | some n, some f =>
      if ip.isEmpty && frac.isEmpty then none
      else
        some (mkRat (signed.1 * (n * 10 ^ frac.length + f)) (10 ^ frac.length))
    | _, _ => none

/-- `clean_decimal` from `convert.py`.  The `raw` argument is the
`.string` of a cell, hence possibly `None` (modelled `none`), on which
Python's `raw.strip()` raises `AttributeError`.

```python
def clean_decimal(raw, allow_null=False):
    cleaned = raw.strip().replace(',', '')
    if cleaned:
        return Decimal(cleaned)
    if allow_null:
        return Decimal(0)
    raise ValueError(f"Did not know how to handle {raw}")
``` -/
def clean_decimal (raw : Option String) (allow_null : Bool) : Except Err ℚ :=
  match raw with
  | none => .error .attributeError
  | some s =>
    let cleaned := pyRemoveChar (pyStrip s) ','
    if cleaned = "" then
      if allow_null then .ok 0 else .error .valueError
    else
      match parseDecimal cleaned with
      | some q => .ok q
      | none => .error .invalidOperation

/-- A calendar date, the result of `datetime.date.fromisoformat`. -/
structure Date where
  year : Nat
  month : Nat
  day : Nat
deriving DecidableEq, Repr

/-- Gregorian leap-year rule, as in `datetime`. -/
def isLeap (y : Nat) : Bool :=
  (y % 4 = 0 && y % 100 ≠ 0) || y % 400 = 0

/-- Length of a month, as validated by `datetime.date`. -/
def daysInMonth (y m : Nat) : Nat :=
  if m = 2 then (if isLeap y then 29 else 28)
  else if m = 4 ∨ m = 6 ∨ m = 9 ∨ m = 11 then 30
  else 31

/-- `datetime.date.fromisoformat`: accepts exactly `YYYY-MM-DD` with a
calendar-valid year, month and day, raising `ValueError` otherwise. -/
def dateFromIso (s : String) : Except Err Date :=
  match s.toList with
  | [y1, y2, y3, y4, '-', m1, m2, '-', d1, d2] =>
    match digitsToNat [y1, y2, y3, y4], digitsToNat [m1, m2],
        digitsToNat [d1, d2] with
    | some y, some m, some d =>
      if 1 ≤ y ∧ 1 ≤ m ∧ m ≤ 12 ∧ 1 ≤ d ∧ d ≤ daysInMonth y m then
        .ok ⟨y, m, d⟩
      else .error .valueError
    | _, _, _ => .error .valueError
  | _ => .error .valueError

/-- A table cell: its BeautifulSoup `.string` (`none` when the element has
no single direct text node) and the `.string`s of its nested `div`
sub-elements in document order. -/
structure Cell where
  str : Option String
  divs : List (Option String)
deriving DecidableEq, Repr

/-- A table row: its `th` descendants' and `td` descendants' cells. -/
structure Row where
  ths : List Cell
  tds : List Cell
deriving DecidableEq, Repr

/-- `Entry` from `convert.py`: a frozen dataclass with structural equality
over all nine fields.  Note the runtime type of `tx_id` is `str` (the
`int` annotation in the source is not enforced by Python). -/
structure Entry where
  date : Date
  memo : String
  amount : ℚ
  fee : ℚ
  atm_fee : ℚ
  conversion_fee : ℚ
  decision : String
  tx_id : String
  note : String
deriving DecidableEq, Repr

/-- `tds[i]`: Python list subscripting, raising `IndexError` out of
range. -/
def getTd (tds : List Cell) (i : Nat) : Except Err Cell :=
  match tds[i]? with
  | some c => .ok c
  | none => .error .indexError

/-- `cell.find_all("div")[i]`: subscripting the nested `div` list. -/
def getDiv (c : Cell) (i : Nat) : Except Err (Option String) :=
  match c.divs[i]? with
  | some o => .ok o
  | none => .error .indexError

/-- `x.string.strip()`: raises `AttributeError` when `.string` is
`None`. -/
def stringStrip (o : Option String) : Except Err String :=
  match o with
  | none => .error .attributeError
  | some s => .ok (pyStrip s)

/-- The memo literal denoting a top-up transaction. -/
def topUpLiteral : String := "チャージ"

/-- The body of the row loop in `read_in` once a row has passed the skip
checks: reads the cells positionally and constructs the `Entry`, in the
source's evaluation order.

```python
date_raw = tds[0].string.strip()
amount_raw = tds[2].find_all("div")[1].string.strip()
memo = tds[1].string.strip()
amount = clean_decimal(amount_raw)
if memo == "チャージ":
    amount *= -1
entry = Entry(
    date=datetime.date.fromisoformat(date_raw.replace("/", "-")),
    memo=memo,
    amount=amount,
    fee=clean_decimal(tds[3].string, allow_null=True),
    atm_fee=clean_decimal(tds[4].string, allow_null=True),
    conversion_fee=clean_decimal(tds[5].string, allow_null=True),
    decision=tds[6].string.strip(),
    tx_id=tds[7].string.strip(),
    note=tds[8].string.strip(),
)
``` -/
def extractEntry (tds : List Cell) : Except Err Entry := do
  let td0 ← getTd tds 0
  let date_raw ← stringStrip td0.str
  let td2 ← getTd tds 2
  let div1 ← getDiv td2 1
  let amount_raw ← stringStrip div1
  let td1 ← getTd tds 1
  let memo ← stringStrip td1.str
  let amount0 ← clean_decimal (some amount_raw) false
  let amount := if memo = topUpLiteral then -amount0 else amount0
  let date ← dateFromIso (pyReplaceChar date_raw '/' '-')
  let td3 ← getTd tds 3
  let fee ← clean_decimal td3.str true
  let td4 ← getTd tds 4
  let atm_fee ← clean_decimal td4.str true
  let td5 ← getTd tds 5
  let conversion_fee ← clean_decimal td5.str true
  let td6 ← getTd tds 6
  let decision ← stringStrip td6.str
  let td7 ← getTd tds 7
  let tx_id ← stringStrip td7.str
  let td8 ← getTd tds 8
  let note ← stringStrip td8.str
  pure ⟨date, memo, amount, fee, atm_fee, conversion_fee, decision,
    tx_id, note⟩

/-- Python truthiness of `date.string and date.string.strip()`: true iff
the cell has a direct text node whose stripped form is nonempty. -/
def firstCellTruthy (o : Option String) : Bool :=
  match o with
  | none => false
  | some s => !(s == "") && !(pyStrip s == "")

/-- One iteration of the row loop in `read_in`: `ok none` means the row
is skipped (`continue`), `ok (some e)` yields an entry, `error` aborts
the document.

```python
if row.find_all("th"):
    continue
date, *_ = row.find_all("td")
if not (date.string and date.string.strip()):
    continue
...
``` -/
def parseRow (row : Row) : Except Err (Option Entry) :=
  if row.ths.isEmpty then
    match row.tds with
    | [] => .error .valueError
    | date :: _ =>
      if firstCellTruthy date.str then
        (extractEntry row.tds).map some
      else
        .ok none
  else
    .ok none

/-- The row loop of `read_in`, accumulating into the `entries` set. -/
def entriesLoop (rows : List Row) (acc : Finset Entry) :
    Except Err (Finset Entry) :=
  match rows with
  | [] => .ok acc
  | r :: rest =>
    match parseRow r with
    | .error e => .error e
    | .ok none => entriesLoop rest acc
    | .ok (some en) => entriesLoop rest (insert en acc)

/-- `read_in` from `convert.py`.  The document is abstracted to the row
list of its first `table` element; `none` models a document without a
table, on which `table.find_all("tr")` raises `AttributeError`. -/
def read_in (doc : Option (List Row)) : Except Err (Finset Entry) :=
  match doc with
  | none => .error .attributeError
  | some rows => entriesLoop rows ∅

/-- The file loop of `main`: reads each discovered document and unions
the per-file entry sets into `contents`. -/
def gather (docs : List (Option (List Row))) (acc : Finset Entry) :
    Except Err (Finset Entry) :=
  match docs with
  | [] => .ok acc
  | d :: rest =>
    match read_in d with
    | .error e => .error e
    | .ok s => gather rest (acc ∪ s)

/-- The outcome of a successful run of `main`: either no output file was
written (the `contents` set was empty and `main` returned early) or the
output file was written with exactly the given set of rows. -/
inductive RunResult where
  | noOutput : RunResult
  | wroteFile : Finset Entry → RunResult
deriving DecidableEq

/-- `main` from `convert.py`, abstracted over the glob result: parse all
documents, then (and only then) decide whether to open and write the
output file.  `Except.error` models the uncaught exception path, which
exits with a non-zero status and never reaches the `open(args.output)`
call; `.ok` models exit status 0. -/
def mainRun (docs : List (Option (List Row))) : Except Err RunResult :=
  match gather docs ∅ with
  | .error e => .error e
  | .ok contents =>
    if contents = ∅ then .ok .noOutput
    else .ok (.wroteFile contents)

/-- The `.string` of the memo cell (column 1) of a row's `td` list. -/
def memoCellText (tds : List Cell) : Option String :=
  (tds[1]?).bind Cell.str

/-- The `.string` of the second nested `div` of the amount cell
(column 2), when present. -/
def amountCellText (tds : List Cell) : Option String :=
  (tds[2]?.bind (fun c => c.divs[1]?)).bind id

/-- A cell with a single direct text node and no nested `div`s. -/
def cellOf (s : String) : Cell := ⟨some s, []⟩

/-- A concrete valid data row: a top-up of 1,000.00 on 2023/04/01 with
blank fee cells. -/
def rowTopUp : Row :=
  ⟨[], [cellOf "2023/04/01", cellOf "チャージ",
    ⟨none, [some " 9,999.99 ", some " 1,000.00 "]⟩, cellOf " ", cellOf " ",
    cellOf " ", cellOf "承認", cellOf "123", cellOf ""]⟩

/-- `rowTopUp` with a purchase memo instead of the top-up literal. -/
def rowPurchase : Row :=
  ⟨[], [cellOf "2023/04/01", cellOf "買い物",
    ⟨none, [some " 9,999.99 ", some " 1,000.00 "]⟩, cellOf " ", cellOf " ",
    cellOf " ", cellOf "承認", cellOf "123", cellOf ""]⟩

/-- The entry extracted from `rowTopUp`. -/
def entryTopUp : Entry :=
  ⟨⟨2023, 4, 1⟩, "チャージ", -1000, 0, 0, 0, "承認", "123", ""⟩

/-- The entry extracted from `rowPurchase`. -/
def entryPurchase : Entry :=
  ⟨⟨2023, 4, 1⟩, "買い物", 1000, 0, 0, 0, "承認", "123", ""⟩

/-- A valid data row whose transaction-identifier cell (column 7) has
whitespace-only text. -/
def rowTxBlank : Row :=
  ⟨[], [cellOf "2023/04/01", cellOf "買い物",
    ⟨none, [some " 9,999.99 ", some " 1,000.00 "]⟩, cellOf " ", cellOf " ",
    cellOf " ", cellOf "承認", cellOf " ", cellOf ""]⟩

/-- The entry extracted from `rowTxBlank`: its `tx_id` is empty. -/
def entryTxBlank : Entry :=
  ⟨⟨2023, 4, 1⟩, "買い物", 1000, 0, 0, 0, "承認", "", ""⟩

/-- The base-10 value of a digit list, most significant digit first. -/
def digitsVal (l : List Nat) : Nat :=
  l.foldl (fun a d => 10 * a + d) 0

/-- Modelled from the spec: the mathematically exact decimal value of the
numeral whose integer digits are `ip` and fractional digits are `fp`,
namely `digitsVal ip + digitsVal fp / 10 ^ fp.length`. -/
def specExactValue (ip fp : List Nat) : ℚ :=
  (digitsVal ip : ℚ) + (digitsVal fp : ℚ) / (10 : ℚ) ^ fp.length

/-- The character of a decimal digit. -/
def digitChar (d : Nat) : Char :=
  Char.ofNat (48 + d)

/-- The separator-free rendering `ip.fp` of a fixed-point numeral. -/
def renderPlain (ip fp : List Nat) : String :=
  String.mk (ip.map digitChar ++ '.' :: fp.map digitChar)

/-! ## Inversion helpers -/

theorem except_bind_ok {ε α β : Type} (a : Except ε α) (f : α → Except ε β)
    (b : β) : (a >>= f) = .ok b ↔ ∃ x, a = .ok x ∧ f x = .ok b := by
  cases a <;> simp [Bind.bind, Except.bind]

theorem except_map_ok {ε α β : Type} (f : α → β) (a : Except ε α) (b : β) :
    Except.map f a = .ok b ↔ ∃ x, a = .ok x ∧ f x = b := by
  cases a <;> simp [Except.map]

theorem except_pure_ok {ε α : Type} (a b : α) :
    (pure a : Except ε α) = .ok b ↔ a = b := by
  simp [pure, Except.pure]

theorem getTd_ok (tds : List Cell) (i : Nat) (c : Cell) :
    getTd tds i = .ok c ↔ tds[i]? = some c := by
  unfold getTd
  cases h : tds[i]? <;> simp

theorem getDiv_ok (c : Cell) (i : Nat) (o : Option String) :
    getDiv c i = .ok o ↔ c.divs[i]? = some o := by
  unfold getDiv
  cases h : c.divs[i]? <;> simp

theorem stringStrip_ok (o : Option String) (s : String) :
    stringStrip o = .ok s ↔ ∃ t, o = some t ∧ pyStrip t = s := by
  cases o <;> simp [stringStrip]

/-- Blank (empty or whitespace-only) input with `allow_null` yields the
exact decimal zero. -/
theorem clean_decimal_blank (s : String) (h : pyStrip s = "") :
    clean_decimal (some s) true = .ok 0 := by
  simp only [clean_decimal, h]
  rfl

/-- `Except.ok` bind reduction. -/
theorem except_ok_bind {ε α β : Type} (x : α) (f : α → Except ε β) :
    ((Except.ok x : Except ε α) >>= f) = f x := rfl

/-! ## C1: sign rule -/

/-- C1: for every parsed data row, if the stripped memo cell text equals
the top-up literal `"チャージ"`, the `amount` field of the constructed
record is the negation of the decimal parsed from the amount cell; for
every other memo the `amount` field is the parsed decimal unchanged. -/
theorem extract_sign_rule (tds : List Cell) (e : Entry)
    (h : extractEntry tds = .ok e) :
    ∃ m a q, memoCellText tds = some m ∧ amountCellText tds = some a ∧
      clean_decimal (some (pyStrip a)) false = .ok q ∧
      e.memo = pyStrip m ∧
      (pyStrip m = topUpLiteral → e.amount = -q) ∧
      (pyStrip m ≠ topUpLiteral → e.amount = q) := by
  simp only [extractEntry, except_bind_ok, except_pure_ok, getTd_ok, getDiv_ok,
    stringStrip_ok] at h
  obtain ⟨td0, h0, dr, ⟨t0, ht0, hst0⟩, td2, h2, dv, hdv, ar, ⟨ta, hta, hsta⟩,
    td1, h1, mm, ⟨tm, htm, hstm⟩, q0, hq0, dt, hdt, td3, h3, f3, hf3, td4, h4,
    f4, hf4, td5, h5, f5, hf5, td6, h6, dc, ⟨t6, ht6, hs6⟩, td7, h7, tx,
    ⟨t7, ht7, hs7⟩, td8, h8, nt, ⟨t8, ht8, hs8⟩, he⟩ := h
  subst hstm
  subst he
  refine ⟨tm, ta, q0, ?_, ?_, ?_, ?_, ?_, ?_⟩
  · simp [memoCellText, h1, htm]
  · simp [amountCellText, h2, hdv, hta]
  · rw [hsta]; exact hq0
  · rfl
  · intro hm; simp [hm]
  · intro hm; simp [hm]

/-- Witness for C1 at the concrete top-up row. -/
theorem extract_sign_rule_witness :
    (∃ m a q, memoCellText rowTopUp.tds = some m ∧
      amountCellText rowTopUp.tds = some a ∧
      clean_decimal (some (pyStrip a)) false = .ok q ∧
      entryTopUp.memo = pyStrip m ∧
      (pyStrip m = topUpLiteral → entryTopUp.amount = -q) ∧
      (pyStrip m ≠ topUpLiteral → entryTopUp.amount = q)) :=
  extract_sign_rule rowTopUp.tds entryTopUp (by decide)

/-! ## C3: blank fee cells default to zero -/

/-- C3: a fee, atm_fee or conversion_fee cell whose text is blank (empty
or whitespace-only) parses to the exact decimal zero — never an error —
and the constructed record carries zero in the corresponding field (the
return type `ℚ` rules out a null value). -/
theorem blank_fee_defaults_zero :
    (∀ s, pyStrip s = "" → clean_decimal (some s) true = .ok 0) ∧
    (∀ tds e, extractEntry tds = .ok e →
      ∀ c s, c.str = some s → pyStrip s = "" →
        (tds[3]? = some c → e.fee = 0) ∧
        (tds[4]? = some c → e.atm_fee = 0) ∧
        (tds[5]? = some c → e.conversion_fee = 0)) := by
  refine ⟨clean_decimal_blank, ?_⟩
  intro tds e h c s hcs hblank
  simp only [extractEntry, except_bind_ok, except_pure_ok, getTd_ok, getDiv_ok,
    stringStrip_ok] at h
  obtain ⟨td0, h0, dr, ⟨t0, ht0, hst0⟩, td2, h2, dv, hdv, ar, ⟨ta, hta, hsta⟩,
    td1, h1, mm, ⟨tm, htm, hstm⟩, q0, hq0, dt, hdt, td3, h3, f3, hf3, td4, h4,
    f4, hf4, td5, h5, f5, hf5, td6, h6, dc, ⟨t6, ht6, hs6⟩, td7, h7, tx,
    ⟨t7, ht7, hs7⟩, td8, h8, nt, ⟨t8, ht8, hs8⟩, he⟩ := h
  subst he
  refine ⟨?_, ?_, ?_⟩
  · intro hc
    have hcd : c = td3 := Option.some.inj (hc.symm.trans h3)
    subst hcd
    rw [hcs, clean_decimal_blank s hblank] at hf3
    exact (Except.ok.inj hf3).symm
  · intro hc
    have hcd : c = td4 := Option.some.inj (hc.symm.trans h4)
    subst hcd
    rw [hcs, clean_decimal_blank s hblank] at hf4
    exact (Except.ok.inj hf4).symm
  · intro hc
    have hcd : c = td5 := Option.some.inj (hc.symm.trans h5)
    subst hcd
    rw [hcs, clean_decimal_blank s hblank] at hf5
    exact (Except.ok.inj hf5).symm

/-- Witness for C3 at a whitespace-only fee string and the concrete
top-up row (whose fee cell is `" "`). -/
theorem blank_fee_defaults_zero_witness :
    clean_decimal (some "  ") true = .ok 0 ∧
    (rowTopUp.tds[3]? = some (cellOf " ") → entryTopUp.fee = 0) :=
  ⟨blank_fee_defaults_zero.1 "  " (by decide),
    (blank_fee_defaults_zero.2 rowTopUp.tds entryTopUp (by decide)
      (cellOf " ") " " (by decide) (by decide)).1⟩

/-! ## C4: blank non-nullable cells -/

/-- Counterexample to C4: a row whose transaction-identifier cell text is
whitespace-only (blank after stripping) does NOT make extraction fail:
the row yields a record whose `tx_id` is the empty string. -/
theorem blank_txid_not_error :
    rowTxBlank.tds[7]? = some (cellOf " ") ∧ (cellOf " ").str = some " " ∧
    pyStrip " " = "" ∧
    parseRow rowTxBlank = .ok (some entryTxBlank) ∧
    entryTxBlank.tx_id = "" :=
  ⟨by decide, by decide, by decide, by decide, by decide⟩

/-- C4 (amended): a blank amount cell text makes extraction of the row
fail, but a blank transaction-identifier cell text does not raise: the
record is constructed with an empty `tx_id` string. -/
theorem blank_amount_errors_blank_txid_empty :
    (∀ tds a, amountCellText tds = some a → pyStrip a = "" →
      ∃ err, extractEntry tds = .error err) ∧
    (∀ tds e c s, extractEntry tds = .ok e → tds[7]? = some c →
      c.str = some s → pyStrip s = "" → e.tx_id = "") := by
  constructor
  · intro tds a hamt hblank
    cases hE : extractEntry tds with
    | error err => exact ⟨err, rfl⟩
    | ok e =>
      exfalso
      simp only [extractEntry, except_bind_ok, except_pure_ok, getTd_ok,
        getDiv_ok, stringStrip_ok] at hE
      obtain ⟨td0, h0, dr, ⟨t0, ht0, hst0⟩, td2, h2, dv, hdv, ar,
        ⟨ta, hta, hsta⟩, td1, h1, mm, ⟨tm, htm, hstm⟩, q0, hq0, rest⟩ := hE
      simp only [amountCellText, h2, hdv, hta, Option.some_bind, id_eq] at hamt
      obtain rfl := Option.some.inj hamt
      rw [← hsta, hblank] at hq0
      have hcd : clean_decimal (some "") false = .error .valueError := by decide
      rw [hcd] at hq0
      exact Except.noConfusion hq0
  · intro tds e c s hE hc hcs hblank
    simp only [extractEntry, except_bind_ok, except_pure_ok, getTd_ok,
      getDiv_ok, stringStrip_ok] at hE
    obtain ⟨td0, h0, dr, ⟨t0, ht0, hst0⟩, td2, h2, dv, hdv, ar, ⟨ta, hta, hsta⟩,
      td1, h1, mm, ⟨tm, htm, hstm⟩, q0, hq0, dt, hdt, td3, h3, f3, hf3, td4, h4,
      f4, hf4, td5, h5, f5, hf5, td6, h6, dc, ⟨t6, ht6, hs6⟩, td7, h7, tx,
      ⟨t7, ht7, hs7⟩, td8, h8, nt, ⟨t8, ht8, hs8⟩, he⟩ := hE
    subst he
    have hcd : c = td7 := Option.some.inj (hc.symm.trans h7)
    subst hcd
    have hts : t7 = s := Option.some.inj (ht7.symm.trans hcs)
    subst hts
    show tx = ""
    rw [← hs7]
    exact hblank

/-- Witness for the amended C4: a blank amount cell fails, and the
concrete blank-`tx_id` row yields an empty `tx_id`. -/
theorem blank_amount_errors_blank_txid_empty_witness :
    (∃ err, extractEntry [cellOf "2023/04/01", cellOf "買い物",
      ⟨none, [some " 9,999.99 ", some "  "]⟩, cellOf " ", cellOf " ",
      cellOf " ", cellOf "承認", cellOf "123", cellOf ""] = .error err) ∧
    entryTxBlank.tx_id = "" :=
  ⟨blank_amount_errors_blank_txid_empty.1 _ "  " (by decide) (by decide),
    blank_amount_errors_blank_txid_empty.2 rowTxBlank.tds entryTxBlank
      (cellOf " ") " " (by decide) (by decide) (by decide) (by decide)⟩

/-! ## C5: amount comes from the second nested div -/

/-- C5: the amount is parsed from the text of the second nested `div`
(index 1) of the third cell (column 2); the first nested `div` is never
used: replacing it changes nothing about extraction. -/
theorem amount_from_second_div :
    (∀ tds e, extractEntry tds = .ok e →
      ∃ c s q, tds[2]? = some c ∧ c.divs[1]? = some (some s) ∧
        clean_decimal (some (pyStrip s)) false = .ok q ∧
        (e.amount = q ∨ e.amount = -q)) ∧
    (∀ tds c v, tds[2]? = some c →
      extractEntry (tds.set 2 ⟨c.str, c.divs.set 0 v⟩) = extractEntry tds) := by
  constructor
  · intro tds e h
    simp only [extractEntry, except_bind_ok, except_pure_ok, getTd_ok,
      getDiv_ok, stringStrip_ok] at h
    obtain ⟨td0, h0, dr, ⟨t0, ht0, hst0⟩, td2, h2, dv, hdv, ar, ⟨ta, hta, hsta⟩,
      td1, h1, mm, ⟨tm, htm, hstm⟩, q0, hq0, dt, hdt, td3, h3, f3, hf3, td4, h4,
      f4, hf4, td5, h5, f5, hf5, td6, h6, dc, ⟨t6, ht6, hs6⟩, td7, h7, tx,
      ⟨t7, ht7, hs7⟩, td8, h8, nt, ⟨t8, ht8, hs8⟩, he⟩ := h
    subst he
    subst hta
    refine ⟨td2, ta, q0, h2, hdv, ?_, ?_⟩
    · rw [hsta]; exact hq0
    · show (if mm = topUpLiteral then -q0 else q0) = q0 ∨
        (if mm = topUpLiteral then -q0 else q0) = -q0
      by_cases hm : mm = topUpLiteral
      · right; simp [hm]
      · left; simp [hm]
  · intro tds c v h2
    obtain ⟨hl, -⟩ := List.getElem?_eq_some_iff.mp h2
    have e2 : (tds.set 2 ⟨c.str, c.divs.set 0 v⟩)[2]? =
        some ⟨c.str, c.divs.set 0 v⟩ := List.getElem?_set_self hl
    have g2 : getTd (tds.set 2 ⟨c.str, c.divs.set 0 v⟩) 2 =
        .ok ⟨c.str, c.divs.set 0 v⟩ := by unfold getTd; rw [e2]
    have g2' : getTd tds 2 = .ok c := by unfold getTd; rw [h2]
    have gne : ∀ i, 2 ≠ i → getTd (tds.set 2 ⟨c.str, c.divs.set 0 v⟩) i =
        getTd tds i := by
      intro i hi
      unfold getTd
      rw [List.getElem?_set_ne hi]
    have gd : getDiv ⟨c.str, c.divs.set 0 v⟩ 1 = getDiv c 1 := by
      unfold getDiv
      show (match (c.divs.set 0 v)[1]? with
        | some o => Except.ok o
        | none => Except.error Err.indexError) = _
      rw [List.getElem?_set_ne (by decide)]
    simp only [extractEntry, g2, g2', gne 0 (by decide), gne 1 (by decide),
      gne 3 (by decide), gne 4 (by decide), gne 5 (by decide),
      gne 6 (by decide), gne 7 (by decide), gne 8 (by decide),
      except_ok_bind, gd]


/-- Witness for C5: the concrete top-up row reads its amount from the
second `div`, and overwriting the first `div` of the purchase row leaves
extraction unchanged. -/
theorem amount_from_second_div_witness :
    (∃ c s q, rowTopUp.tds[2]? = some c ∧ c.divs[1]? = some (some s) ∧
      clean_decimal (some (pyStrip s)) false = .ok q ∧
      (entryTopUp.amount = q ∨ entryTopUp.amount = -q)) ∧
    extractEntry (rowPurchase.tds.set 2
      ⟨(⟨none, [some " 9,999.99 ", some " 1,000.00 "]⟩ : Cell).str,
        (⟨none, [some " 9,999.99 ", some " 1,000.00 "]⟩ : Cell).divs.set 0
          (some "0.01")⟩) = extractEntry rowPurchase.tds :=
  ⟨(amount_from_second_div.1 rowTopUp.tds entryTopUp (by decide)),
    amount_from_second_div.2 rowPurchase.tds
      ⟨none, [some " 9,999.99 ", some " 1,000.00 "]⟩ (some "0.01") (by decide)⟩

/-! ## C6: header rows and blank-first-cell rows are skipped -/

/-- C6: a row containing any header (`th`) cell, or whose first data
cell's text is blank or whitespace-only, contributes no record and no
error, regardless of its other cells. -/
theorem header_or_blank_first_skipped (row : Row)
    (h : row.ths ≠ [] ∨ ∃ c rest s, row.tds = c :: rest ∧ c.str = some s ∧
      pyStrip s = "") :
    parseRow row = .ok none := by
  unfold parseRow
  rcases h with hth | ⟨c, rest, s, htds, hcs, hblank⟩
  · rw [if_neg (by simpa using hth)]
  · by_cases hth : row.ths.isEmpty
    · have hf : firstCellTruthy c.str = false := by
        rw [hcs]
        unfold firstCellTruthy
        simp [hblank]
      rw [if_pos hth, htds]
      simp [hf]
    · rw [if_neg hth]


/-- Witness for C6: a header row and a blank-first-cell row are both
skipped. -/
theorem header_or_blank_first_skipped_witness :
    parseRow ⟨[cellOf "date"], []⟩ = .ok none ∧
    parseRow ⟨[], [cellOf "  ", cellOf "anything"]⟩ = .ok none :=
  ⟨header_or_blank_first_skipped ⟨[cellOf "date"], []⟩ (.inl (by decide)),
    header_or_blank_first_skipped ⟨[], [cellOf "  ", cellOf "anything"]⟩
      (.inr ⟨cellOf "  ", [cellOf "anything"], "  ", rfl, rfl, by decide⟩)⟩


/-! ## C10: nested markup in the first cell is silently skipped -/

/-- C10: a row whose first data cell has no direct string value (nested
markup, so BeautifulSoup `.string` is `None`) is silently skipped exactly
like a blank cell: no record and no error, whatever the other cells
hold. -/
theorem nested_first_cell_skipped (row : Row) (c : Cell) (rest : List Cell)
    (htds : row.tds = c :: rest) (hnone : c.str = none) :
    parseRow row = .ok none := by
  unfold parseRow
  by_cases hth : row.ths.isEmpty
  · have hf : firstCellTruthy c.str = false := by rw [hnone]; rfl
    rw [if_pos hth, htds]
    simp [hf]
  · rw [if_neg hth]


/-- Witness for C10: a row with a nested-markup first cell and otherwise
fully valid data yields no record. -/
theorem nested_first_cell_skipped_witness :
    parseRow ⟨[], [⟨none, [some "2023/04/01"]⟩, cellOf "買い物",
      ⟨none, [some " 9,999.99 ", some " 1,000.00 "]⟩, cellOf " ", cellOf " ",
      cellOf " ", cellOf "承認", cellOf "123", cellOf ""]⟩ = .ok none :=
  nested_first_cell_skipped _ ⟨none, [some "2023/04/01"]⟩ _ rfl rfl

/-! ## C2: structural equality and deduplication -/

/-- C2: two records are equal exactly when all nine fields are equal, and
when two input files each yield a row with all nine fields equal, the
union of the per-file sets (which is what `main` writes) contains that
record exactly once (multiplicity one in the underlying multiset). -/
theorem entry_eq_iff_and_dedup :
    (∀ a b : Entry, a = b ↔ a.date = b.date ∧ a.memo = b.memo ∧
      a.amount = b.amount ∧ a.fee = b.fee ∧ a.atm_fee = b.atm_fee ∧
      a.conversion_fee = b.conversion_fee ∧ a.decision = b.decision ∧
      a.tx_id = b.tx_id ∧ a.note = b.note) ∧
    (∀ d1 d2 s1 s2 e, read_in d1 = .ok s1 → read_in d2 = .ok s2 →
      e ∈ s1 → e ∈ s2 →
      mainRun [d1, d2] = .ok (.wroteFile (s1 ∪ s2)) ∧
      Multiset.count e (s1 ∪ s2).val = 1) := by
  constructor
  · intro a b
    cases a
    cases b
    simp
  · intro d1 d2 s1 s2 e h1 h2 he1 he2
    have hg : gather [d1, d2] ∅ = .ok (s1 ∪ s2) := by
      simp [gather, h1, h2]
    have hne : ¬s1 ∪ s2 = ∅ :=
      Finset.ne_empty_of_mem (Finset.mem_union_left s2 he1)
    constructor
    · unfold mainRun
      rw [hg]
      simp [hne]
    · exact Multiset.count_eq_one_of_mem (s1 ∪ s2).nodup
        (Finset.mem_union_left s2 he1)


/-- Witness for C2: two files each containing the purchase row merge to a
single copy of its record. -/
theorem entry_eq_iff_and_dedup_witness :
    ((entryTopUp = entryPurchase) ↔ (entryTopUp.date = entryPurchase.date ∧
      entryTopUp.memo = entryPurchase.memo ∧
      entryTopUp.amount = entryPurchase.amount ∧
      entryTopUp.fee = entryPurchase.fee ∧
      entryTopUp.atm_fee = entryPurchase.atm_fee ∧
      entryTopUp.conversion_fee = entryPurchase.conversion_fee ∧
      entryTopUp.decision = entryPurchase.decision ∧
      entryTopUp.tx_id = entryPurchase.tx_id ∧
      entryTopUp.note = entryPurchase.note)) ∧
    mainRun [some [rowPurchase], some [rowPurchase]] =
      .ok (.wroteFile (({entryPurchase} : Finset Entry) ∪ {entryPurchase})) ∧
    Multiset.count entryPurchase
      ((({entryPurchase} : Finset Entry) ∪ {entryPurchase})).val = 1 :=
  ⟨entry_eq_iff_and_dedup.1 entryTopUp entryPurchase,
    entry_eq_iff_and_dedup.2 (some [rowPurchase]) (some [rowPurchase])
      {entryPurchase} {entryPurchase} entryPurchase rfl rfl
      (by decide) (by decide)⟩


/-! ## C7: empty union writes nothing and succeeds -/

/-- C7: when the accumulated set is empty (no files at all, or files with
no valid data rows), `main` returns early with success (`.ok`) and never
reaches the output-writing branch (`.noOutput`). -/
theorem empty_contents_no_output (docs : List (Option (List Row)))
    (h : gather docs ∅ = .ok ∅) : mainRun docs = .ok .noOutput := by
  unfold mainRun
  rw [h]
  simp


/-- Witness for C7: an empty glob result, and a single file whose only
row is a header row, both end in a successful no-output run. -/
theorem empty_contents_no_output_witness :
    mainRun [] = .ok .noOutput ∧
    mainRun [some [⟨[cellOf "日付"], [cellOf "日付"]⟩]] = .ok .noOutput :=
  ⟨empty_contents_no_output [] (by decide),
    empty_contents_no_output [some [⟨[cellOf "日付"], [cellOf "日付"]⟩]]
      (by decide)⟩


/-! ## C9: an extraction error aborts the run before any output -/

/-- C9: if reading any input file fails, the whole run ends in the
uncaught-exception path (`.error`, non-zero exit status).  In `mainRun`
the output file is opened only in the `.ok (.wroteFile _)` branch, which
is unreachable here: every file is parsed into the accumulating set
before the output path is opened. -/
theorem extract_error_aborts_run (docs : List (Option (List Row)))
    (d : Option (List Row)) (err : Err) (hmem : d ∈ docs)
    (herr : read_in d = .error err) :
    ∃ e, mainRun docs = .error e := by
  have key : ∀ l : List (Option (List Row)), d ∈ l → ∀ acc,
      ∃ e, gather l acc = .error e := by
    intro l
    induction l with
    | nil => intro h; cases h
    | cons hd tl ih =>
      intro hmem acc
      unfold gather
      cases hre : read_in hd with
      | error e => exact ⟨e, by simp⟩
      | ok s =>
        rcases List.mem_cons.mp hmem with rfl | htl
        · rw [hre] at herr
          cases herr
        · simpa using ih htl (acc ∪ s)
  obtain ⟨e, hg⟩ := key docs hmem ∅
  unfold mainRun
  rw [hg]
  exact ⟨e, rfl⟩


/-- Witness for C9: a run over one good document and one document without
a table aborts with an error. -/
theorem extract_error_aborts_run_witness :
    ∃ e, mainRun [some [rowTopUp], none] = .error e :=
  extract_error_aborts_run [some [rowTopUp], none] none .attributeError
    (by decide) (by decide)

/-! ## C8: decimal fidelity -/

theorem digitChar_ne_dot {d : Nat} (h : d < 10) : digitChar d ≠ '.' := by
  interval_cases d <;> decide

theorem splitSign_digit {d : Nat} (h : d < 10) (r : List Char) :
    splitSign (digitChar d :: r) = (1, digitChar d :: r) := by
  interval_cases d <;> rfl

theorem charDigit_digitChar {d : Nat} (h : d < 10) :
    charDigit (digitChar d) = some d := by
  interval_cases d <;> rfl

theorem digitsAux_map (l : List Nat) (h : ∀ d ∈ l, d < 10) :
    ∀ acc, digitsAux acc (l.map digitChar) =
      some (l.foldl (fun a d => 10 * a + d) acc) := by
  induction l with
  | nil => intro acc; rfl
  | cons d ds ih =>
    intro acc
    have hd : d < 10 := h d (by simp)
    simp only [List.map_cons, digitsAux, charDigit_digitChar hd,
      List.foldl_cons]
    exact ih (fun x hx => h x (by simp [hx])) _

theorem digitsToNat_map (l : List Nat) (h : ∀ d ∈ l, d < 10) :
    digitsToNat (l.map digitChar) = some (digitsVal l) :=
  digitsAux_map l h 0

theorem takeWhile_dropWhile_render (l : List Nat) (h : ∀ d ∈ l, d < 10)
    (r : List Char) :
    (l.map digitChar ++ '.' :: r).takeWhile (fun c => c ≠ '.') =
        l.map digitChar ∧
    (l.map digitChar ++ '.' :: r).dropWhile (fun c => c ≠ '.') = '.' :: r := by
  induction l with
  | nil => constructor <;> simp [List.takeWhile_cons, List.dropWhile_cons]
  | cons d ds ih =>
    have hd : d < 10 := h d (by simp)
    have hds := ih (fun x hx => h x (by simp [hx]))
    simp only [ne_eq, decide_not] at hds ⊢
    constructor
    · simp [List.takeWhile_cons, digitChar_ne_dot hd, hds.1]
    · simp [List.dropWhile_cons, digitChar_ne_dot hd, hds.2]

/-- C8: a numeric cell string of the form `X,XXX.XX` (integer digits
with optional comma separators, a point, fractional digits) cleans and
parses to the mathematically exact rational value of its digits — no
floating-point is involved anywhere in the model. -/
theorem decimal_fidelity (s : String) (ip fp : List Nat)
    (hip : ip ≠ []) (hipd : ∀ d ∈ ip, d < 10) (hfpd : ∀ d ∈ fp, d < 10)
    (hs : pyRemoveChar (pyStrip s) ',' = renderPlain ip fp) :
    clean_decimal (some s) false = .ok (specExactValue ip fp) := by
  obtain ⟨d, ds, rfl⟩ : ∃ d ds, ip = d :: ds := by
    cases ip with
    | nil => exact absurd rfl hip
    | cons d ds => exact ⟨d, ds, rfl⟩
  have hd : d < 10 := hipd d (by simp)
  have hds : ∀ x ∈ ds, x < 10 := fun x hx => hipd x (by simp [hx])
  have hne : renderPlain (d :: ds) fp ≠ "" := by
    unfold renderPlain
    intro hcon
    have hli := congrArg String.toList hcon
    simp at hli
  have htd := takeWhile_dropWhile_render (d :: ds) hipd (fp.map digitChar)
  simp only [clean_decimal]
  rw [hs, if_neg hne]
  unfold parseDecimal renderPlain
  simp only [String.toList, List.map_cons, List.cons_append,
    splitSign_digit hd] at htd ⊢
  rw [htd.1, htd.2]
  rw [show digitsToNat (digitChar d :: List.map digitChar ds) =
    some (digitsVal (d :: ds)) from digitsToNat_map (d :: ds) hipd]
  simp only [digitsToNat_map fp hfpd, List.isEmpty_cons, Bool.false_and,
    Bool.false_eq_true, if_false, List.length_map]
  have key : mkRat ((1 : Int) * (digitsVal (d :: ds) * 10 ^ fp.length +
      digitsVal fp)) (10 ^ fp.length) = specExactValue (d :: ds) fp := by
    rw [Rat.mkRat_eq_div]
    unfold specExactValue
    have h10 : ((10 : ℚ)) ^ fp.length ≠ 0 := pow_ne_zero _ (by norm_num)
    push_cast
    field_simp
  rw [key]

/-- Witness for C8: `"1,234.56"` parses to exactly `1234.56`. -/
theorem decimal_fidelity_witness :
    clean_decimal (some "1,234.56") false =
      .ok (specExactValue [1, 2, 3, 4] [5, 6]) ∧
    specExactValue [1, 2, 3, 4] [5, 6] = 1234.56 :=
  ⟨decimal_fidelity "1,234.56" [1, 2, 3, 4] [5, 6] (by decide) (by decide)
      (by decide) (by decide),
    by norm_num [specExactValue, digitsVal]⟩
